import Mathlib

/-!
Verification of the transcription provider core of the `silence` repository
(Go backend, package `transcription`): the data model, the PCM→WAV
containerization (`PcmToWav`), the two concrete providers (ElevenLabs and
Chutes), and the ordered fallback chain (`ProviderChain.Transcribe`).

Bytes are modelled as `Nat` (values < 256 where they come from the code),
Go `int` as `Int`, byte slices as `List Nat`, and Go's two-value returns
`(*T, error)` as `Option T × Option String` (the error is its message
string).  Network and JSON-decoding effects are modelled by explicit
oracle parameters: an `HttpOutcome` for the outbound call and an
`Except String _` for the decode of the response body.
-/

namespace Silence

/-- The UTF-8 bytes of an ASCII string, as written by Go's
`bytes.Buffer.WriteString` for the ASCII literals in the source. -/
def strBytes (s : String) : List Nat :=
  s.toList.map Char.toNat

/-- Little-endian encoding of the low 32 bits of a natural number, as
written by `binary.Write(&buf, binary.LittleEndian, uint32(n))`. -/
def u32le (n : Nat) : List Nat :=
  [n % 256, n / 256 % 256, n / 65536 % 256, n / 16777216 % 256]

/-- Little-endian encoding of the low 16 bits of a natural number, as
written by `binary.Write(&buf, binary.LittleEndian, uint16(n))`. -/
def u16le (n : Nat) : List Nat :=
  [n % 256, n / 256 % 256]

/-- Go's conversion `uint32(i)` of a (64-bit) `int`: the low 32 bits of
the two's-complement representation, i.e. `i mod 2^32`. -/
def intToU32 (i : Int) : Nat :=
  (i % 4294967296).toNat

/-- Go's conversion `uint16(i)` of a (64-bit) `int`: `i mod 2^16`. -/
def intToU16 (i : Int) : Nat :=
  (i % 65536).toNat

/-- `u32le` after Go's `int → uint32` conversion. -/
def u32leI (i : Int) : List Nat :=
  u32le (intToU32 i)

/-- `u16le` after Go's `int → uint16` conversion. -/
def u16leI (i : Int) : List Nat :=
  u16le (intToU16 i)

/-- Decode four bytes as a little-endian unsigned 32-bit integer (used to
state properties about header fields; not part of the Go source). -/
def u32leDecode : List Nat → Nat
  | [a, b, c, d] => a + b * 256 + c * 65536 + d * 16777216
  | _ => 0

/-- Go's `unicode.IsSpace`: the White_Space code points. -/
def goIsSpace (c : Char) : Bool :=
  [9, 10, 11, 12, 13, 32, 133, 160, 0x1680,
   0x2000, 0x2001, 0x2002, 0x2003, 0x2004, 0x2005, 0x2006, 0x2007,
   0x2008, 0x2009, 0x200A, 0x2028, 0x2029, 0x202F, 0x205F, 0x3000].contains c.toNat

/-- Go's `strings.TrimSpace`: drop leading and trailing white space. -/
def trimSpace (s : String) : String :=
  ⟨((s.toList.dropWhile goIsSpace).reverse.dropWhile goIsSpace).reverse⟩

/-- The standard base64 alphabet (Go `encoding/base64.StdEncoding`). -/
def base64Alphabet : List Char :=
  "ABCDEFGHIJKLMNOPQRSTUVWXYZabcdefghijklmnopqrstuvwxyz0123456789+/".toList

/-- The base64 digit for a 6-bit value. -/
def b64Char (n : Nat) : Char :=
  base64Alphabet.getD n '='

/-- Go's `base64.StdEncoding.EncodeToString`: standard base64 with `=`
padding, over byte values taken mod 256. -/
def base64Chars : List Nat → List Char
  | b1 :: b2 :: b3 :: rest =>
      let n := (b1 % 256) * 65536 + (b2 % 256) * 256 + (b3 % 256)
      b64Char (n / 262144) :: b64Char (n / 4096 % 64) :: b64Char (n / 64 % 64)
        :: b64Char (n % 64) :: base64Chars rest
  | [b1, b2] =>
      let n := (b1 % 256) * 65536 + (b2 % 256) * 256
      [b64Char (n / 262144), b64Char (n / 4096 % 64), b64Char (n / 64 % 64), '=']
  | [b1] =>
      let n := (b1 % 256) * 65536
      [b64Char (n / 262144), b64Char (n / 4096 % 64), '=', '=']
  | [] => []

/-- `base64Chars` packaged as a `String`. -/
def base64Encode (bs : List Nat) : String :=
  ⟨base64Chars bs⟩

/-! ## Data model (`transcription` package) -/

/-- Go `type AudioFormat string`. -/
abbrev AudioFormat := String

/-- `AudioFormatPCMLE16`: 16-bit PCM, little-endian, 16kHz, mono. -/
def AudioFormatPCMLE16 : AudioFormat := "pcm_s16le_16"

/-- `AudioFormatWAV`: WAV format audio. -/
def AudioFormatWAV : AudioFormat := "wav"

/-- Go `AudioMetadata`. -/
structure AudioMetadata where
  format : AudioFormat
  sampleRate : Int
  channels : Int
  bitsPerSample : Int
  deriving DecidableEq, Repr

/-- Go `TranscriptionOptions`. -/
structure TranscriptionOptions where
  languageCode : String
  metadata : AudioMetadata
  deriving DecidableEq, Repr

/-- Go `TranscriptionResult`. -/
structure TranscriptionResult where
  text : String
  languageCode : String
  deriving DecidableEq, Repr

/-- A Go `(*TranscriptionResult, error)` return value: the (possibly nil)
result pointer and the (possibly nil) error, as its message string. -/
abbrev GoResult := Option TranscriptionResult × Option String

/-! ## `PcmToWav` (`backend/transcription/utils.go`) -/

/-- Go `PcmToWav(pcmData, sampleRate, channels, bitsPerSample)`:
synthesizes the 44-byte RIFF/WAVE/fmt/data header in front of the PCM
payload.  Returns `(bytes, error)`; the source always returns a nil
error.  Go's truncating integer division by 8 is `Int.tdiv`. -/
def PcmToWav (pcmData : List Nat) (sampleRate channels bitsPerSample : Int) :
    List Nat × Option String :=
  let dataSize := pcmData.length
  let fileSize := 36 + dataSize
  let byteRate := (sampleRate * channels * bitsPerSample).tdiv 8
  let blockAlign := (channels * bitsPerSample).tdiv 8
  (strBytes "RIFF" ++ u32le fileSize ++ strBytes "WAVE" ++
     strBytes "fmt " ++ u32le 16 ++ u16le 1 ++ u16leI channels ++
     u32leI sampleRate ++ u32leI byteRate ++ u16leI blockAlign ++
     u16leI bitsPerSample ++
     strBytes "data" ++ u32le dataSize ++ pcmData,
   none)

/-! ## ElevenLabs provider (`backend/transcription/elevenlabs.go`) -/

/-- Go `word`: timestamped word data from the ElevenLabs response.
The Go field `End` is rendered `stop` (`end` is a Lean keyword). -/
structure elWord where
  word : String
  start : Float
  stop : Float
  punctuate : Bool

/-- Go `elevenLabsResponse`. -/
structure elevenLabsResponse where
  languageCode : String
  languageProbability : Float
  text : String
  words : List elWord

/-- The `file_format` field and synthesized filename chosen by the
`switch opts.Metadata.Format` in `ElevenLabsProvider.Transcribe`;
`none` is the `default` (unsupported-format) branch. -/
def elFormatFields (f : AudioFormat) : Option (String × String) :=
  if f = AudioFormatPCMLE16 then some ("pcm_s16le_16", "audio.pcm")
  else if f = AudioFormatWAV then some ("other", "audio.wav")
  else none

/-- The multipart/form-data request `ElevenLabsProvider.Transcribe`
constructs: the `model_id` and `file_format` fields, the optional
`language_code` field, and the file part (`filename` plus its bytes). -/
structure ElevenLabsRequest where
  modelId : String
  fileFormat : String
  filename : String
  languageCode : Option String
  fileBytes : List Nat
  deriving DecidableEq, Repr

/-- Construction of the outbound ElevenLabs request from
`ElevenLabsProvider.Transcribe` (the part before `client.Do`): the
`default` format branch fails with `unsupported audio format`; the
`language_code` field is added only when the language code is neither
empty nor `"auto"`; the file part holds `audioData` unchanged. -/
def elBuildRequest (audioData : List Nat) (opts : TranscriptionOptions) :
    Except String ElevenLabsRequest :=
  match elFormatFields opts.metadata.format with
  | none => .error ("unsupported audio format: " ++ opts.metadata.format)
  | some (ff, fn) =>
      .ok { modelId := "scribe_v1"
            fileFormat := ff
            filename := fn
            languageCode :=
              if opts.languageCode ≠ "" ∧ opts.languageCode ≠ "auto" then
                some opts.languageCode
              else none
            fileBytes := audioData }

/-- The file-part bytes the ElevenLabs provider would send, if request
construction succeeds. -/
def elSentBytes (audioData : List Nat) (opts : TranscriptionOptions) :
    Option (List Nat) :=
  match elBuildRequest audioData opts with
  | .ok r => some r.fileBytes
  | .error _ => none

/-- Outcome of the outbound HTTP call (`client.Do`): a transport error,
or a response with a status code and raw body. -/
inductive HttpOutcome where
  | netError (msg : String)
  | response (status : Nat) (rawBody : String)

/-- `ElevenLabsProvider.Transcribe` as a function of the audio data, the
options, the HTTP outcome, and the JSON decode of a 200 body
(`decoded`, the oracle for `json.NewDecoder(...).Decode`).  Mirrors the
source's control flow: unsupported format → error; transport error →
error; non-200 status → error carrying status and body; decode failure
→ error; otherwise the normalized result. -/
def elTranscribe (audioData : List Nat) (opts : TranscriptionOptions)
    (outcome : HttpOutcome) (decoded : Except String elevenLabsResponse) :
    GoResult :=
  match elBuildRequest audioData opts with
  | .error e => (none, some e)
  | .ok _ =>
      match outcome with
      | .netError m => (none, some ("failed to call ElevenLabs API: " ++ m))
      | .response status raw =>
          if status ≠ 200 then
            (none, some ("ElevenLabs API error (status " ++ toString status ++ "): " ++ raw))
          else
            match decoded with
            | .error e => (none, some ("failed to decode ElevenLabs response: " ++ e))
            | .ok r => (some { text := r.text, languageCode := r.languageCode }, none)

/-! ## Chutes provider (`backend/transcription/chutes.go`) -/

/-- Go `chutesSegment`: one segment of the Chutes response array.
The Go field `End` is rendered `stop` (`end` is a Lean keyword). -/
structure chutesSegment where
  start : Float
  stop : Float
  text : String

/-- Go `chutesRequest`: the JSON request body; `language` is a nilable
pointer serialized with `omitempty`. -/
structure chutesRequest where
  audioB64 : String
  language : Option String
  deriving DecidableEq, Repr

/-- The PCM→WAV conversion step at the top of `ChutesProvider.Transcribe`:
when the format is PCM the data is replaced by `PcmToWav` output (its
error, were it ever non-nil, would abort with `failed to convert`). -/
def convertIfPcm (audioData : List Nat) (m : AudioMetadata) :
    Except String (List Nat) :=
  if m.format = AudioFormatPCMLE16 then
    match PcmToWav audioData m.sampleRate m.channels m.bitsPerSample with
    | (w, none) => .ok w
    | (_, some e) => .error ("failed to convert PCM to WAV: " ++ e)
  else .ok audioData

/-- Construction of the outbound Chutes request body: base64 of the
(possibly WAV-wrapped) payload; `language` set only when the language
code is neither empty nor `"auto"`. -/
def chutesBuildRequest (audioData : List Nat) (opts : TranscriptionOptions) :
    Except String chutesRequest :=
  match convertIfPcm audioData opts.metadata with
  | .error e => .error e
  | .ok data =>
      .ok { audioB64 := base64Encode data
            language :=
              if opts.languageCode ≠ "" ∧ opts.languageCode ≠ "auto" then
                some opts.languageCode
              else none }

/-- `ChutesProvider.Transcribe` as a function of the audio data, the
options, the HTTP outcome, the body-read outcome (`readErr`, the oracle
for `io.ReadAll`), and the JSON parse of the body (`parsed`, the oracle
for `json.Unmarshal`).  Mirrors the source's control flow, including
that the body is read before the status check, and that the successful
result is the order-preserving concatenation of segment texts, trimmed,
with an always-empty language code. -/
def chutesTranscribe (audioData : List Nat) (opts : TranscriptionOptions)
    (outcome : HttpOutcome) (readErr : Option String)
    (parsed : Except String (List chutesSegment)) : GoResult :=
  match convertIfPcm audioData opts.metadata with
  | .error e => (none, some e)
  | .ok _ =>
      match outcome with
      | .netError m => (none, some ("failed to call Chutes API: " ++ m))
      | .response status raw =>
          match readErr with
          | some m => (none, some ("failed to read Chutes response: " ++ m))
          | none =>
              if status ≠ 200 then
                (none, some ("Chutes API error (status " ++ toString status ++ "): " ++ raw))
              else
                match parsed with
                | .error e => (none, some ("failed to parse Chutes response: " ++ e))
                | .ok segments =>
                    (some { text := trimSpace ((segments.map chutesSegment.text).foldl (· ++ ·) "")
                            languageCode := "" },
                     none)

/-! ## Provider chain (`backend/transcription/provider.go`) -/

/-- A `TranscriptionProvider`: the single `Transcribe` capability, with
its effects already resolved (the chain only observes the returned
`GoResult`). -/
abbrev Provider := List Nat → TranscriptionOptions → GoResult

/-- The error-wrapping format `fmt.Errorf("provider %d failed: %w", i+1, err)`
(`i` here is already the 1-based ordinal). -/
def wrapErr (ordinal : Nat) (err : String) : String :=
  "provider " ++ toString ordinal ++ " failed: " ++ err

/-- The final chain error `fmt.Errorf("all providers failed, last error: %w", lastErr)`. -/
def allFailedMsg (lastErr : String) : String :=
  "all providers failed, last error: " ++ lastErr

/-- The `for i, provider := range pc.providers` loop of
`ProviderChain.Transcribe`: `ordinal` is the 1-based position of the
head, `lastErr` the wrapped error of the previous attempt. -/
def chainLoop (audioData : List Nat) (opts : TranscriptionOptions) :
    List Provider → Nat → String → GoResult
  | [], _, lastErr => (none, some (allFailedMsg lastErr))
  | p :: rest, ordinal, _ =>
      let r := p audioData opts
      match r.2 with
      | none => (r.1, none)
      | some err => chainLoop audioData opts rest (ordinal + 1) (wrapErr ordinal err)

/-- `ProviderChain.Transcribe`: empty chain fails immediately with
`no transcription providers configured`; otherwise run the loop from
ordinal 1 (the initial `lastErr` string is never read, since the list
is non-empty). -/
def ProviderChain.Transcribe (providers : List Provider)
    (audioData : List Nat) (opts : TranscriptionOptions) : GoResult :=
  match providers with
  | [] => (none, some "no transcription providers configured")
  | _ :: _ => chainLoop audioData opts providers 1 ""

/-- A Go `(*TranscriptionResult, error)` pair is exclusive: exactly one
of the result pointer and the error is non-nil. -/
def goExclusive (r : GoResult) : Prop :=
  (r.1.isSome ∧ r.2 = none) ∨ (r.1 = none ∧ r.2.isSome)

/-! ## Helper lemmas -/

/-- `u32le` always produces four bytes. -/
lemma u32le_length (n : Nat) : (u32le n).length = 4 := rfl

/-- Decoding the little-endian encoding of `n < 2^32` recovers `n`. -/
lemma u32leDecode_u32le (n : Nat) (h : n < 4294967296) :
    u32leDecode (u32le n) = n := by
  simp only [u32le, u32leDecode]
  omega

/-- Normal form of the WAV bytes for the 16kHz/mono/16-bit parameters:
the fixed header bytes, with the two length fields and the payload left
symbolic. -/
lemma pcmToWav_16k_unfold (p : List Nat) :
    (PcmToWav p 16000 1 16).1 =
      [82, 73, 70, 70] ++ u32le (36 + p.length) ++
      [87, 65, 86, 69, 102, 109, 116, 32, 16, 0, 0, 0, 1, 0, 1, 0,
       128, 62, 0, 0, 0, 125, 0, 0, 2, 0, 16, 0, 100, 97, 116, 97] ++
      u32le p.length ++ p := by
  have hR : strBytes "RIFF" = [82, 73, 70, 70] := by decide
  have hW : strBytes "WAVE" = [87, 65, 86, 69] := by decide
  have hF : strBytes "fmt " = [102, 109, 116, 32] := by decide
  have hD : strBytes "data" = [100, 97, 116, 97] := by decide
  have h16 : u32le 16 = [16, 0, 0, 0] := by decide
  have hFmt : u16le 1 = [1, 0] := by decide
  have hCh : u16leI 1 = [1, 0] := by decide
  have hSR : u32leI 16000 = [128, 62, 0, 0] := by decide
  have hBR : u32leI ((16000 * 1 * 16 : Int).tdiv 8) = [0, 125, 0, 0] := by decide
  have hBA : u16leI ((1 * 16 : Int).tdiv 8) = [2, 0] := by decide
  have hBits : u16leI 16 = [16, 0] := by decide
  simp only [PcmToWav]
  rw [hR, hW, hF, hD, h16, hFmt, hCh, hSR, hBR, hBA, hBits]
  simp [u32le, List.append_assoc]

/-- Claim C3: a chain constructed from an empty provider list fails
immediately with the no-providers-configured error, for every input;
no provider exists to be invoked, so no network activity occurs. -/
theorem chain_empty_no_providers (audioData : List Nat) (opts : TranscriptionOptions) :
    ProviderChain.Transcribe [] audioData opts =
      (none, some "no transcription providers configured") := rfl

/-- Claim C9: `PcmToWav` always succeeds — its error return value is nil
on every input (any payload, including the empty one, and any sample
rate, channel count, and bit depth). -/
theorem pcmToWav_never_fails (pcmData : List Nat) (sampleRate channels bitsPerSample : Int) :
    (PcmToWav pcmData sampleRate channels bitsPerSample).2 = none := rfl

/-- Claim C4: for a PCM payload of `N` bytes at 16kHz/mono/16-bit, the
synthesized container is `N + 44` bytes, starts with `RIFF`, has `WAVE`
at offset 8, carries `N` in the little-endian `data` sub-chunk size
field at offset 40, and ends with the payload unchanged. -/
theorem pcmToWav_header_16k (p : List Nat) (h : p.length < 4294967296) :
    (PcmToWav p 16000 1 16).1.length = p.length + 44 ∧
    (PcmToWav p 16000 1 16).1.take 4 = strBytes "RIFF" ∧
    ((PcmToWav p 16000 1 16).1.drop 8).take 4 = strBytes "WAVE" ∧
    u32leDecode (((PcmToWav p 16000 1 16).1.drop 40).take 4) = p.length ∧
    (PcmToWav p 16000 1 16).1.drop 44 = p := by
  have hR : strBytes "RIFF" = [82, 73, 70, 70] := by decide
  have hW : strBytes "WAVE" = [87, 65, 86, 69] := by decide
  rw [pcmToWav_16k_unfold, hR, hW]
  refine ⟨?_, ?_, ?_, ?_, ?_⟩
  · simp [u32le]
  · simp [u32le, List.take]
  · simp [u32le, List.take, List.drop]
  · have : (([82, 73, 70, 70] ++ u32le (36 + p.length) ++
        [87, 65, 86, 69, 102, 109, 116, 32, 16, 0, 0, 0, 1, 0, 1, 0,
         128, 62, 0, 0, 0, 125, 0, 0, 2, 0, 16, 0, 100, 97, 116, 97] ++
        u32le p.length ++ p).drop 40).take 4 = u32le p.length := by
      simp [u32le, List.drop, List.take]
    rw [this]
    exact u32leDecode_u32le p.length h
  · simp [u32le, List.drop]

/-- Concrete instance of `pcmToWav_header_16k` for the payload
`[1, 2, 3]`. -/
theorem pcmToWav_header_16k_witness :
    (PcmToWav [1, 2, 3] 16000 1 16).1.length = 3 + 44 ∧
    (PcmToWav [1, 2, 3] 16000 1 16).1.take 4 = strBytes "RIFF" ∧
    ((PcmToWav [1, 2, 3] 16000 1 16).1.drop 8).take 4 = strBytes "WAVE" ∧
    u32leDecode (((PcmToWav [1, 2, 3] 16000 1 16).1.drop 40).take 4) = 3 ∧
    (PcmToWav [1, 2, 3] 16000 1 16).1.drop 44 = [1, 2, 3] :=
  pcmToWav_header_16k [1, 2, 3] (by decide)

/-- `convertIfPcm` always succeeds, and its output is the WAV-wrapped
payload for the PCM format and the unchanged payload otherwise. -/
lemma convertIfPcm_isOk (a : List Nat) (m : AudioMetadata) :
    convertIfPcm a m = .ok
      (if m.format = AudioFormatPCMLE16 then
        (PcmToWav a m.sampleRate m.channels m.bitsPerSample).1
      else a) := by
  by_cases h : m.format = AudioFormatPCMLE16 <;> simp [convertIfPcm, h, PcmToWav]

/-- Claim C10: when the metadata format is neither PCM nor WAV, the
ElevenLabs provider fails with the unsupported-audio-format error during
request construction, and its result is the same for every network
outcome and every decode outcome — no network call is made. -/
theorem elevenlabs_unsupported_format (a : List Nat) (o : TranscriptionOptions)
    (h1 : o.metadata.format ≠ AudioFormatPCMLE16)
    (h2 : o.metadata.format ≠ AudioFormatWAV) :
    elBuildRequest a o = .error ("unsupported audio format: " ++ o.metadata.format) ∧
    ∀ (out : HttpOutcome) (dec : Except String elevenLabsResponse),
      elTranscribe a o out dec =
        (none, some ("unsupported audio format: " ++ o.metadata.format)) := by
  have hf : elFormatFields o.metadata.format = none := by
    simp [elFormatFields, h1, h2]
  exact ⟨by simp [elBuildRequest, hf], fun out dec => by simp [elTranscribe, elBuildRequest, hf]⟩

/-- Concrete instance of `elevenlabs_unsupported_format` at format
`"mp3"`: the result ignores the (here: failing-network) oracle. -/
theorem elevenlabs_unsupported_format_witness :
    elTranscribe [1] ⟨"auto", ⟨"mp3", 16000, 1, 16⟩⟩ (.netError "boom") (.error "e") =
      (none, some ("unsupported audio format: " ++ "mp3")) :=
  (elevenlabs_unsupported_format [1] ⟨"auto", ⟨"mp3", 16000, 1, 16⟩⟩
    (by decide) (by decide)).2 (.netError "boom") (.error "e")

/-- Claim C6: on a 200-status Chutes response whose body parses as a
segment array, the result text is the order-preserving concatenation of
the segment texts, trimmed of leading and trailing white space, and the
language code is the empty string. -/
theorem chutes_success_normalization (a : List Nat) (o : TranscriptionOptions)
    (raw : String) (segments : List chutesSegment) :
    chutesTranscribe a o (.response 200 raw) none (.ok segments) =
      (some { text := trimSpace (String.join (segments.map chutesSegment.text))
              languageCode := "" }, none) := by
  have hjoin : (segments.map chutesSegment.text).foldl (· ++ ·) "" =
      String.join (segments.map chutesSegment.text) := rfl
  simp [chutesTranscribe, convertIfPcm_isOk, hjoin]

/-- Claim C8: the Chutes request body's `audio_b64` is the standard
base64 encoding of the payload being sent (the `convertIfPcm` output),
and the `language` field is present exactly when the language code is
neither empty nor `"auto"`, in which case it equals the language code. -/
theorem chutes_request_fields (a : List Nat) (o : TranscriptionOptions) :
    ∃ payload req,
      convertIfPcm a o.metadata = .ok payload ∧
      chutesBuildRequest a o = .ok req ∧
      req.audioB64 = base64Encode payload ∧
      (req.language.isSome ↔ (o.languageCode ≠ "" ∧ o.languageCode ≠ "auto")) ∧
      (∀ s, req.language = some s → s = o.languageCode) := by
  have hconv := convertIfPcm_isOk a o.metadata
  by_cases hl : o.languageCode ≠ "" ∧ o.languageCode ≠ "auto"
  · refine ⟨_, ⟨base64Encode
        (if o.metadata.format = AudioFormatPCMLE16 then
          (PcmToWav a o.metadata.sampleRate o.metadata.channels o.metadata.bitsPerSample).1
        else a), some o.languageCode⟩, hconv, ?_, rfl, ?_, ?_⟩
    · simp [chutesBuildRequest, hconv, hl]
    · simpa using hl
    · intro s hs
      simp at hs
      exact hs.symm
  · refine ⟨_, ⟨base64Encode
        (if o.metadata.format = AudioFormatPCMLE16 then
          (PcmToWav a o.metadata.sampleRate o.metadata.channels o.metadata.bitsPerSample).1
        else a), none⟩, hconv, ?_, rfl, ?_, ?_⟩
    · simp only [chutesBuildRequest, hconv]
      rw [if_neg hl]
    · simpa using hl
    · intro s hs
      simp at hs

/-- Counterexample to claim C5: with PCM-format options, the ElevenLabs
provider sends the raw two-byte payload `[0, 0]` unchanged — it is not
the `PcmToWav` output and carries no `RIFF` magic, so the payload
actually sent is not WAV-containerized. -/
theorem elevenlabs_pcm_sent_raw_cx :
    elSentBytes [0, 0] ⟨"auto", ⟨AudioFormatPCMLE16, 16000, 1, 16⟩⟩ = some [0, 0] ∧
    (PcmToWav [0, 0] 16000 1 16).1 ≠ [0, 0] ∧
    ([0, 0] : List Nat).take 4 ≠ strBytes "RIFF" := by decide

/-- Amended claim C5: with PCM-format options, the Chutes provider
synthesizes the WAV container (via `PcmToWav`, from the metadata's
sample rate, channels, and bits per sample) before building its request,
so its payload is WAV-containerized; the ElevenLabs provider instead
sends the raw PCM bytes unchanged, declaring `file_format`
`"pcm_s16le_16"` and filename `audio.pcm` in its multipart request. -/
theorem pcm_wav_wrapping_per_provider (a : List Nat) (o : TranscriptionOptions)
    (h : o.metadata.format = AudioFormatPCMLE16) :
    chutesBuildRequest a o = .ok
        { audioB64 := base64Encode
            (PcmToWav a o.metadata.sampleRate o.metadata.channels o.metadata.bitsPerSample).1
          language :=
            if o.languageCode ≠ "" ∧ o.languageCode ≠ "auto" then
              some o.languageCode
            else none } ∧
    elBuildRequest a o = .ok
        { modelId := "scribe_v1"
          fileFormat := "pcm_s16le_16"
          filename := "audio.pcm"
          languageCode :=
            if o.languageCode ≠ "" ∧ o.languageCode ≠ "auto" then
              some o.languageCode
            else none
          fileBytes := a } := by
  constructor
  · simp [chutesBuildRequest, convertIfPcm_isOk, h]
  · simp [elBuildRequest, elFormatFields, h]

/-- Concrete instance of `pcm_wav_wrapping_per_provider` at payload
`[5]` with language `"en"`. -/
theorem pcm_wav_wrapping_per_provider_witness :
    chutesBuildRequest [5] ⟨"en", ⟨AudioFormatPCMLE16, 16000, 1, 16⟩⟩ = .ok
        { audioB64 := base64Encode (PcmToWav [5] 16000 1 16).1
          language :=
            if ("en" : String) ≠ "" ∧ ("en" : String) ≠ "auto" then some "en" else none } ∧
    elBuildRequest [5] ⟨"en", ⟨AudioFormatPCMLE16, 16000, 1, 16⟩⟩ = .ok
        { modelId := "scribe_v1"
          fileFormat := "pcm_s16le_16"
          filename := "audio.pcm"
          languageCode :=
            if ("en" : String) ≠ "" ∧ ("en" : String) ≠ "auto" then some "en" else none
          fileBytes := [5] } :=
  pcm_wav_wrapping_per_provider [5] ⟨"en", ⟨AudioFormatPCMLE16, 16000, 1, 16⟩⟩ rfl

/-! ## Chain lemmas -/

/-- Elements of `l.take n ++ rest` below index `n` come from `l`. -/
lemma get_take_append {α : Type} (l rest : List α) (n j : Nat)
    (hj : j < n) (hl : j < l.length) (hq : j < (l.take n ++ rest).length) :
    (l.take n ++ rest).get ⟨j, hq⟩ = l.get ⟨j, hl⟩ := by
  induction l generalizing n j with
  | nil => simp at hl
  | cons x xs ih =>
      cases n with
      | zero => omega
      | succ n' =>
          cases j with
          | zero => rfl
          | succ j' =>
              exact ih n' j' (by omega) (by simpa using hl)
                (by simpa using hq)

/-- One step of the loop on a non-empty list. -/
lemma chainLoop_cons (a : List Nat) (o : TranscriptionOptions) (p : Provider)
    (rest : List Provider) (i : Nat) (e : String) :
    chainLoop a o (p :: rest) i e =
      match (p a o).2 with
      | none => ((p a o).1, none)
      | some err => chainLoop a o rest (i + 1) (wrapErr i err) := rfl

/-- On a non-empty list, `Transcribe` is the loop from ordinal 1. -/
lemma transcribe_of_ne_nil (ps : List Provider) (h : ps ≠ [])
    (a : List Nat) (o : TranscriptionOptions) :
    ProviderChain.Transcribe ps a o = chainLoop a o ps 1 "" := by
  cases ps with
  | nil => exact absurd rfl h
  | cons p tl => rfl

/-- If the first `k` providers fail and provider `k` succeeds, the loop
returns provider `k`'s result with a nil error, whatever the starting
ordinal and accumulated error. -/
lemma chainLoop_first_success (a : List Nat) (o : TranscriptionOptions) :
    ∀ (ps : List Provider) (k : Nat) (hk : k < ps.length),
      (∀ j, j < k → ∀ (hj : j < ps.length), ((ps.get ⟨j, hj⟩) a o).2 ≠ none) →
      ((ps.get ⟨k, hk⟩) a o).2 = none →
      ∀ (i : Nat) (e : String),
        chainLoop a o ps i e = (((ps.get ⟨k, hk⟩) a o).1, none) := by
  intro ps
  induction ps with
  | nil => intro k hk; simp at hk
  | cons p rest ih =>
      intro k hk hbefore hsucc i e
      cases k with
      | zero =>
          have h0 : (p a o).2 = none := hsucc
          simp [chainLoop, h0]
      | succ k' =>
          have h0 : (p a o).2 ≠ none :=
            hbefore 0 (Nat.succ_pos k') (by simp)
          obtain ⟨err, herr⟩ : ∃ e0, (p a o).2 = some e0 :=
            Option.ne_none_iff_exists'.mp h0
          simp only [chainLoop, herr]
          exact ih k' (Nat.lt_of_succ_lt_succ hk)
            (fun j hj hj2 => hbefore (j + 1) (Nat.succ_lt_succ hj) (Nat.succ_lt_succ hj2))
            hsucc (i + 1) (wrapErr i err)

/-- If every provider fails and the last one fails with `eLast`, the loop
returns the all-providers-failed error wrapping only `eLast`, tagged with
the last provider's ordinal. -/
lemma chainLoop_all_fail (a : List Nat) (o : TranscriptionOptions) :
    ∀ (ps : List Provider), ps ≠ [] →
      (∀ j, ∀ (hj : j < ps.length), ((ps.get ⟨j, hj⟩) a o).2 ≠ none) →
      ∀ (hlt : ps.length - 1 < ps.length) (eLast : String),
        ((ps.get ⟨ps.length - 1, hlt⟩) a o).2 = some eLast →
      ∀ (i : Nat) (e : String),
        chainLoop a o ps i e =
          (none, some (allFailedMsg (wrapErr (i + ps.length - 1) eLast))) := by
  intro ps
  induction ps with
  | nil => intro h; exact absurd rfl h
  | cons p rest ih =>
      intro _ hfail hlt eLast hlast i e
      cases rest with
      | nil =>
          have h0 : (p a o).2 = some eLast := hlast
          simp [chainLoop, h0, allFailedMsg, wrapErr]
      | cons q rest' =>
          have h0 : (p a o).2 ≠ none := hfail 0 (by simp)
          obtain ⟨err, herr⟩ : ∃ e0, (p a o).2 = some e0 :=
            Option.ne_none_iff_exists'.mp h0
          have hrec := ih (by simp)
            (fun j hj => hfail (j + 1) (Nat.succ_lt_succ hj))
            (by simp) eLast hlast (i + 1) (wrapErr i err)
          have harith : i + 1 + (q :: rest').length - 1 = i + (p :: q :: rest').length - 1 := by
            simp only [List.length_cons]
            omega
          calc chainLoop a o (p :: q :: rest') i e
              = chainLoop a o (q :: rest') (i + 1) (wrapErr i err) := by
                rw [chainLoop_cons, herr]
            _ = (none, some (allFailedMsg (wrapErr (i + 1 + (q :: rest').length - 1) eLast))) :=
                hrec
            _ = (none, some (allFailedMsg (wrapErr (i + (p :: q :: rest').length - 1) eLast))) := by
                rw [harith]

/-- If every provider in the list returns an exclusive pair, so does the
loop. -/
lemma chainLoop_exclusive (a : List Nat) (o : TranscriptionOptions) :
    ∀ (ps : List Provider) (i : Nat) (e : String),
      (∀ p ∈ ps, goExclusive (p a o)) → goExclusive (chainLoop a o ps i e) := by
  intro ps
  induction ps with
  | nil => intro i e _; exact Or.inr ⟨rfl, rfl⟩
  | cons p rest ih =>
      intro i e hall
      have hp := hall p (List.mem_cons_self p rest)
      cases hpo : (p a o).2 with
      | none =>
          simp only [chainLoop, hpo]
          rcases hp with ⟨h1, _⟩ | ⟨_, h2⟩
          · exact Or.inl ⟨h1, rfl⟩
          · rw [hpo] at h2; simp at h2
      | some err =>
          simp only [chainLoop, hpo]
          exact ih (i + 1) (wrapErr i err)
            (fun q hq => hall q (List.mem_cons_of_mem p hq))

/-! ## Chain theorems -/

/-- Claim C1: with a non-empty provider list, the chain returns the
result of the first provider (in construction order) whose call
succeeds, with a nil error; and the chain's answer does not depend on
the providers after that one — they are never invoked. -/
theorem chain_first_success (ps : List Provider) (a : List Nat)
    (o : TranscriptionOptions) (k : Nat) (hk : k < ps.length)
    (hbefore : ∀ j, j < k → ∀ (hj : j < ps.length), ((ps.get ⟨j, hj⟩) a o).2 ≠ none)
    (hsucc : ((ps.get ⟨k, hk⟩) a o).2 = none) :
    ProviderChain.Transcribe ps a o = (((ps.get ⟨k, hk⟩) a o).1, none) ∧
    ∀ rest rest' : List Provider,
      ProviderChain.Transcribe (ps.take (k + 1) ++ rest) a o =
        ProviderChain.Transcribe (ps.take (k + 1) ++ rest') a o := by
  obtain ⟨p, tl, rfl⟩ : ∃ p tl, ps = p :: tl := by
    cases ps with
    | nil => simp at hk
    | cons p tl => exact ⟨p, tl, rfl⟩
  constructor
  · exact chainLoop_first_success a o (p :: tl) k hk hbefore hsucc 1 ""
  · intro rest rest'
    have hk' : k < tl.length + 1 := by simpa using hk
    have hmain : ∀ rs : List Provider,
        ProviderChain.Transcribe ((p :: tl).take (k + 1) ++ rs) a o =
          ((((p :: tl)).get ⟨k, hk⟩ a o).1, none) := by
      intro rs
      have hqlen : k < ((p :: tl).take (k + 1) ++ rs).length := by
        rw [List.length_append, List.length_take]
        simp only [List.length_cons]
        omega
      have hLne : (p :: tl).take (k + 1) ++ rs ≠ [] := by
        intro hnil
        have hlen := congrArg List.length hnil
        rw [List.length_append, List.length_take] at hlen
        simp only [List.length_cons, List.length_nil] at hlen
        omega
      have hbefore' : ∀ j, j < k →
          ∀ (hj : j < ((p :: tl).take (k + 1) ++ rs).length),
          ((((p :: tl).take (k + 1) ++ rs).get ⟨j, hj⟩) a o).2 ≠ none := by
        intro j hj hjL
        rw [get_take_append (p :: tl) rs (k + 1) j (by omega) (by omega) hjL]
        exact hbefore j hj (by omega)
      have hsucc' : ((((p :: tl).take (k + 1) ++ rs).get ⟨k, hqlen⟩) a o).2 = none := by
        rw [get_take_append (p :: tl) rs (k + 1) k (by omega) hk hqlen]
        exact hsucc
      have hres := chainLoop_first_success a o ((p :: tl).take (k + 1) ++ rs) k hqlen
        hbefore' hsucc' 1 ""
      rw [transcribe_of_ne_nil _ hLne, hres,
        get_take_append (p :: tl) rs (k + 1) k (by omega) hk hqlen]
    rw [hmain rest, hmain rest']

/-- Concrete instance of `chain_first_success`: the first provider fails,
the second succeeds, and the chain returns the second's result. -/
theorem chain_first_success_witness :
    ProviderChain.Transcribe
        [fun _ _ => (none, some "boom"),
         fun _ _ => (some ⟨"hello", "en"⟩, none),
         fun _ _ => (some ⟨"third", ""⟩, none)] [9]
        ⟨"auto", ⟨AudioFormatWAV, 16000, 1, 16⟩⟩ =
      ((([fun _ _ => (none, some "boom"),
          fun _ _ => (some ⟨"hello", "en"⟩, none),
          fun _ _ => (some ⟨"third", ""⟩, none)] : List Provider).get
          ⟨1, by simp⟩ [9] ⟨"auto", ⟨AudioFormatWAV, 16000, 1, 16⟩⟩).1, none) :=
  (chain_first_success
    [fun _ _ => (none, some "boom"),
     fun _ _ => (some ⟨"hello", "en"⟩, none),
     fun _ _ => (some ⟨"third", ""⟩, none)] [9]
    ⟨"auto", ⟨AudioFormatWAV, 16000, 1, 16⟩⟩ 1 (by simp)
    (fun j hj hj2 => by
      match j, hj with
      | 0, _ => simp
    )
    rfl).1

/-- Claim C2: when every provider in a non-empty chain fails, the chain
returns a nil result and the all-providers-failed error, which wraps
exactly the last provider's error message tagged with its 1-based
ordinal (the list length); earlier providers' errors do not appear. -/
theorem chain_all_fail (ps : List Provider) (a : List Nat)
    (o : TranscriptionOptions) (hne : ps ≠ [])
    (hfail : ∀ j, ∀ (hj : j < ps.length), ((ps.get ⟨j, hj⟩) a o).2 ≠ none)
    (hlt : ps.length - 1 < ps.length) (eLast : String)
    (hlast : ((ps.get ⟨ps.length - 1, hlt⟩) a o).2 = some eLast) :
    ProviderChain.Transcribe ps a o =
      (none, some (allFailedMsg (wrapErr ps.length eLast))) := by
  obtain ⟨p, tl, rfl⟩ : ∃ p tl, ps = p :: tl := by
    cases ps with
    | nil => exact absurd rfl hne
    | cons p tl => exact ⟨p, tl, rfl⟩
  have h := chainLoop_all_fail a o (p :: tl) hne hfail hlt eLast hlast 1 ""
  have harith : 1 + (p :: tl).length - 1 = (p :: tl).length := by omega
  rw [harith] at h
  exact h

/-- Concrete instance of `chain_all_fail`: two failing providers; the
chain error names ordinal 2 and the second provider's message only. -/
theorem chain_all_fail_witness :
    ProviderChain.Transcribe
        [fun _ _ => (none, some "boom"), fun _ _ => (none, some "kaboom")] [7]
        ⟨"auto", ⟨AudioFormatWAV, 16000, 1, 16⟩⟩ =
      (none, some (allFailedMsg (wrapErr 2 "kaboom"))) :=
  chain_all_fail
    [fun _ _ => (none, some "boom"), fun _ _ => (none, some "kaboom")] [7]
    ⟨"auto", ⟨AudioFormatWAV, 16000, 1, 16⟩⟩ (by simp)
    (fun j hj => by
      match j, hj with
      | 0, _ => simp
      | 1, _ => simp)
    (by simp) "kaboom" rfl

/-- Claim C7: each concrete provider, and the chain over providers that
themselves return exclusive pairs, returns either a non-nil result with
a nil error or a nil result with a non-nil error — never both, never
neither (no partial results). -/
theorem no_partial_results :
    (∀ (a : List Nat) (o : TranscriptionOptions) (out : HttpOutcome)
        (dec : Except String elevenLabsResponse),
        goExclusive (elTranscribe a o out dec)) ∧
    (∀ (a : List Nat) (o : TranscriptionOptions) (out : HttpOutcome)
        (readErr : Option String) (parsed : Except String (List chutesSegment)),
        goExclusive (chutesTranscribe a o out readErr parsed)) ∧
    (∀ (ps : List Provider) (a : List Nat) (o : TranscriptionOptions),
        (∀ p ∈ ps, goExclusive (p a o)) →
        goExclusive (ProviderChain.Transcribe ps a o)) := by
  refine ⟨?_, ?_, ?_⟩
  · intro a o out dec
    cases hb : elBuildRequest a o with
    | error e => exact Or.inr ⟨by simp [elTranscribe, hb], by simp [elTranscribe, hb]⟩
    | ok r =>
        cases out with
        | netError m => exact Or.inr ⟨by simp [elTranscribe, hb], by simp [elTranscribe, hb]⟩
        | response st raw =>
            by_cases hst : st ≠ 200
            · exact Or.inr ⟨by simp [elTranscribe, hb, hst], by simp [elTranscribe, hb, hst]⟩
            · cases dec with
              | error e =>
                  exact Or.inr ⟨by simp [elTranscribe, hb, hst], by simp [elTranscribe, hb, hst]⟩
              | ok r2 =>
                  exact Or.inl ⟨by simp [elTranscribe, hb, hst], by simp [elTranscribe, hb, hst]⟩
  · intro a o out readErr parsed
    cases hb : convertIfPcm a o.metadata with
    | error e => exact Or.inr ⟨by simp [chutesTranscribe, hb], by simp [chutesTranscribe, hb]⟩
    | ok d =>
        cases out with
        | netError m => exact Or.inr ⟨by simp [chutesTranscribe, hb], by simp [chutesTranscribe, hb]⟩
        | response st raw =>
            cases readErr with
            | some m =>
                exact Or.inr ⟨by simp [chutesTranscribe, hb], by simp [chutesTranscribe, hb]⟩
            | none =>
                by_cases hst : st ≠ 200
                · exact Or.inr ⟨by simp [chutesTranscribe, hb, hst], by simp [chutesTranscribe, hb, hst]⟩
                · cases parsed with
                  | error e =>
                      exact Or.inr ⟨by simp [chutesTranscribe, hb, hst], by simp [chutesTranscribe, hb, hst]⟩
                  | ok segs =>
                      exact Or.inl ⟨by simp [chutesTranscribe, hb, hst], by simp [chutesTranscribe, hb, hst]⟩
  · intro ps a o hall
    cases ps with
    | nil => exact Or.inr ⟨rfl, rfl⟩
    | cons p rest => exact chainLoop_exclusive a o (p :: rest) 1 "" hall

/-- Concrete instance of the chain part of `no_partial_results`. -/
theorem no_partial_results_witness :
    goExclusive (ProviderChain.Transcribe
      [fun _ _ => (none, some "boom"), fun _ _ => (some ⟨"hello", "en"⟩, none)] [3]
      ⟨"auto", ⟨AudioFormatWAV, 16000, 1, 16⟩⟩) :=
  no_partial_results.2.2
    [fun _ _ => (none, some "boom"), fun _ _ => (some ⟨"hello", "en"⟩, none)] [3]
    ⟨"auto", ⟨AudioFormatWAV, 16000, 1, 16⟩⟩
    (by
      intro p hp
      simp at hp
      rcases hp with h | h <;> subst h
      · exact Or.inr ⟨rfl, rfl⟩
      · exact Or.inl ⟨rfl, rfl⟩)

end Silence
